import Mathlib

/-!
Verification development for the ser20 simdjson JSON archive
(`include/ser20/archives/simdjson.hpp`).

The write-side archive (`JSONOutputArchive`) is embedded as a state
machine over a stack of node states, a stack of name counters, a pending
name and a list of events emitted to the external rapidjson writer.
The read-side archive (`JSONInputArchive`) is embedded as a stack of
iterators over a parsed JSON document tree (`JValue`), with a pending
name.  The external collaborators (rapidjson writer, simdjson parser,
base64 codec, stringstream printing) are modelled at their interface
boundary, as the spec fixes them there.
-/

set_option autoImplicit false

namespace Ser20

/-- A parsed JSON document tree, as exposed by the external simdjson DOM.
Integer JSON numbers that fit `int64` are stored as `jint`; positive
numbers above `int64` range are stored as `juint`; other numbers as
`jdouble` (carried exactly as a rational, since this repository applies
no transformation to double payloads). -/
inductive JValue where
  | jnull
  | jbool (b : Bool)
  | jint (i : Int)
  | juint (u : Nat)
  | jdouble (q : Rat)
  | jstr (s : String)
  | jarr (elems : List JValue)
  | jobj (fields : List (String × JValue))

/-- Model of `simdjson::dom::element::get_int64` at the interface
boundary: succeeds on an int64-typed number, and on a uint64-typed
number that fits in int64; fails otherwise. -/
def get_int64 : JValue → Option Int
  | .jint i => some i
  | .juint u => if u ≤ 2 ^ 63 - 1 then some (u : Int) else none
  | _ => none

/-- Model of `simdjson::dom::element::get_uint64`: succeeds on a
uint64-typed number, and on a nonnegative int64-typed number; fails on
negative numbers and non-numbers. -/
def get_uint64 : JValue → Option Nat
  | .jint i => if 0 ≤ i then some i.toNat else none
  | .juint u => some u
  | _ => none

/-- Model of `simdjson::dom::element::get_bool`. -/
def get_bool : JValue → Option Bool
  | .jbool b => some b
  | _ => none

/-- Model of `simdjson::dom::element::get_double`: succeeds on any
number. -/
def get_double : JValue → Option Rat
  | .jdouble q => some q
  | .jint i => some (i : Rat)
  | .juint u => some (u : Rat)
  | _ => none

/-- Model of `simdjson::dom::element::get_string`. -/
def get_string : JValue → Option String
  | .jstr s => some s
  | _ => none

/-- One call into the external rapidjson writer, as issued by
`JSONOutputArchive`.  `wstr` covers `itsWriter.String`, which the source
uses both for object keys and for string values. -/
inductive WEvent where
  | startObj
  | endObj
  | startArr
  | endArr
  | wstr (s : String)
  | wbool (b : Bool)
  | wint (i : Int)
  | wuint (u : Nat)
  | wint64 (i : Int)
  | wuint64 (u : Nat)
  | wdouble (q : Rat)
  | wnull
  deriving DecidableEq

/-- Model of the external pipeline writer-primitive → JSON text →
simdjson parse, restricted to a single scalar write: which DOM scalar
the parser hands back for each writer primitive.  `wuint64` values at or
above `2^63` come back uint64-typed; everything smaller comes back
int64-typed, per simdjson's number typing. -/
def parseScalarEvent : WEvent → Option JValue
  | .wbool b => some (.jbool b)
  | .wint i => some (.jint i)
  | .wuint u => some (.jint (u : Int))
  | .wint64 i => some (.jint i)
  | .wuint64 u => some (if u < 2 ^ 63 then .jint (u : Int) else .juint u)
  | .wdouble q => some (.jdouble q)
  | .wstr s => some (.jstr s)
  | .wnull => some .jnull
  | _ => none

/-! ### Scalar save paths (`JSONOutputArchive::saveValue` overloads) -/

/-- `saveValue(bool)`: forwards to `itsWriter.Bool`. -/
def saveValueBool (b : Bool) : WEvent := .wbool b

/-- `saveValue(int)`: forwards to `itsWriter.Int`. -/
def saveValueI32 (i : Int) : WEvent := .wint i

/-- `saveValue(unsigned)`: forwards to `itsWriter.Uint`. -/
def saveValueU32 (u : Nat) : WEvent := .wuint u

/-- `saveValue(int64_t)`: forwards to `itsWriter.Int64`. -/
def saveValueI64 (i : Int) : WEvent := .wint64 i

/-- `saveValue(uint64_t)`: forwards to `itsWriter.Uint64`. -/
def saveValueU64 (u : Nat) : WEvent := .wuint64 u

/-- `saveValue(double)`: forwards to `itsWriter.Double`. -/
def saveValueDouble (q : Rat) : WEvent := .wdouble q

/-- `saveValue(std::string const&)`: forwards to `itsWriter.String`. -/
def saveValueString (s : String) : WEvent := .wstr s

/-- `saveValue(std::nullptr_t)`: forwards to `itsWriter.Null`. -/
def saveValueNull : WEvent := .wnull

/-- The wide-arithmetic `saveValue` fallback: prints the value into a
`max_digits10`-precision stringstream and saves the resulting string.
The external printer is passed in as `pr`; on values it prints
losslessly the matching parser inverts it (the C++ `max_digits10`
guarantee). -/
def saveValueWide {α : Type} (pr : α → String) (x : α) : WEvent := .wstr (pr x)

/-! ### Scalar load paths (`JSONInputArchive::loadValue` overloads) -/

/-- The C++20 value of `static_cast<T>(i)` for a signed two's-complement
integer type `T` of bit width `w`: the unique value congruent to `i`
modulo `2^w` lying in `[-2^(w-1), 2^(w-1))`. -/
def signedCast (w : Nat) (i : Int) : Int :=
  (i + 2 ^ (w - 1)) % 2 ^ w - 2 ^ (w - 1)

/-- `loadValue` small-signed overload (`sizeof(T) < sizeof(int64_t)`):
extracts through `get_int64` and narrows with a plain `static_cast`. -/
def loadValueSmallSigned (w : Nat) (j : JValue) : Option Int :=
  (get_int64 j).map (signedCast w)

/-- `loadValue` small-unsigned overload (`sizeof(T) < sizeof(uint64_t)`):
extracts through `get_uint64` and narrows with a plain `static_cast`. -/
def loadValueSmallUnsigned (w : Nat) (j : JValue) : Option Nat :=
  (get_uint64 j).map (fun u => u % 2 ^ w)

/-- `loadValue(bool&)`. -/
def loadValueBool (j : JValue) : Option Bool := get_bool j

/-- `loadValue(int64_t&)`. -/
def loadValueI64 (j : JValue) : Option Int := get_int64 j

/-- `loadValue(uint64_t&)`. -/
def loadValueU64 (j : JValue) : Option Nat := get_uint64 j

/-- `loadValue(double&)`. -/
def loadValueDouble (j : JValue) : Option Rat := get_double j

/-- `loadValue(std::string&)`. -/
def loadValueString (j : JValue) : Option String := get_string j

/-- `loadValue(std::nullptr_t&)`: asserts the node is null. -/
def loadValueNull : JValue → Option Unit
  | .jnull => some ()
  | _ => none

/-- The wide-arithmetic `loadValue` fallback: extracts a string and runs
it through `stringToNumber` (modelled by the external parse function
`pa`, the inverse of the `max_digits10` printer). -/
def loadValueWide {α : Type} (pa : String → α) (j : JValue) : Option α :=
  (get_string j).map pa

/-! ### Write-side archive (`JSONOutputArchive`) -/

/-- `JSONOutputArchive::NodeType`. -/
inductive NodeType where
  | startObject
  | inObject
  | startArray
  | inArray
  deriving DecidableEq

/-- The mutable state of a `JSONOutputArchive`: the node-state stack,
the parallel name-counter stack (both with the head of the list as the
top of the stack), the pending name (`itsNextName`), and the events
already issued to the rapidjson writer, in emission order. -/
structure OutState where
  nodeStack : List NodeType
  nameCounter : List Nat
  nextName : Option String
  events : List WEvent
  deriving DecidableEq

/-- The constructor `JSONOutputArchive(...)`: pushes counter `0` and
node state `StartObject`, with no pending name and nothing written. -/
def initOut : OutState :=
  { nodeStack := [.startObject], nameCounter := [0], nextName := none,
    events := [] }

/-- `JSONOutputArchive::setNextName`: stores the (possibly null) name in
the pending-name slot. -/
def OutState.setNextNameO (st : OutState) (n : Option String) : OutState :=
  { st with nextName := n }

/-- `JSONOutputArchive::writeName`: lazily transitions the top node
state from `StartX` to `InX` (opening the compound in the writer on
first use); in array mode returns with no name emitted and the pending
name untouched; in object mode emits the pending name as the key, or a
synthesized key `"value" + counter` with the top counter bumped (the
counter is a `uint32_t`, so the bump wraps at `2^32`). -/
def OutState.writeName (st : OutState) : OutState :=
  match st.nodeStack, st.nameCounter with
  | nt :: nts, c :: cs =>
    let newTop : NodeType :=
      match nt with
      | .startArray => .inArray
      | .startObject => .inObject
      | t => t
    let openEv : List WEvent :=
      match nt with
      | .startArray => [.startArr]
      | .startObject => [.startObj]
      | _ => []
    if newTop = .inArray then
      { st with nodeStack := newTop :: nts, events := st.events ++ openEv }
    else
      match st.nextName with
      | none =>
        { nodeStack := newTop :: nts,
          nameCounter := ((c + 1) % 2 ^ 32) :: cs,
          nextName := none,
          events := st.events ++ openEv ++ [.wstr ("value" ++ Nat.repr c)] }
      | some n =>
        { nodeStack := newTop :: nts,
          nameCounter := c :: cs,
          nextName := none,
          events := st.events ++ openEv ++ [.wstr n] }
  | _, _ => st

/-- `JSONOutputArchive::startNode`: resolves the enclosing level's name
via `writeName`, then pushes a fresh `StartObject` level with a fresh
zero name counter. -/
def OutState.startNode (st : OutState) : OutState :=
  let st1 := st.writeName
  { st1 with nodeStack := .startObject :: st1.nodeStack,
             nameCounter := 0 :: st1.nameCounter }

/-- `JSONOutputArchive::finishNode`: forces the top level through the
open/close events corresponding to its current state (a `StartX` level
is opened and immediately closed), then pops both stacks. -/
def OutState.finishNode (st : OutState) : OutState :=
  match st.nodeStack, st.nameCounter with
  | nt :: nts, _ :: cs =>
    let evs : List WEvent :=
      match nt with
      | .startArray => [.startArr, .endArr]
      | .inArray => [.endArr]
      | .startObject => [.startObj, .endObj]
      | .inObject => [.endObj]
    { st with nodeStack := nts, nameCounter := cs,
              events := st.events ++ evs }
  | _, _ => st

/-- `JSONOutputArchive::makeArray`: retags the top level as
`StartArray`. -/
def OutState.makeArray (st : OutState) : OutState :=
  match st.nodeStack with
  | _ :: nts => { st with nodeStack := .startArray :: nts }
  | [] => st

/-- The destructor `~JSONOutputArchive`: emits `EndObject` if the top
node state is `InObject`, `EndArray` if it is `InArray`, and nothing
otherwise.  Only the top of the stack is inspected. -/
def OutState.dtor (st : OutState) : OutState :=
  match st.nodeStack.head? with
  | some .inObject => { st with events := st.events ++ [.endObj] }
  | some .inArray => { st with events := st.events ++ [.endArr] }
  | _ => st

/-- The save path for one arithmetic value: the framework prologue calls
`writeName`, then `saveValue` issues the writer primitive `e`. -/
def OutState.writeScalar (st : OutState) (e : WEvent) : OutState :=
  let st1 := st.writeName
  { st1 with events := st1.events ++ [e] }

/-- `JSONOutputArchive::saveBinaryValue`: `setNextName(name)`, then
`writeName()`, then saves the base64 encoding of the buffer as a string
value.  The external base64 encoder is passed in as `enc`. -/
def OutState.saveBinaryValue (st : OutState) (enc : List Nat → String)
    (bytes : List Nat) (name : Option String) : OutState :=
  let st1 := ({ st with nextName := name } : OutState).writeName
  { st1 with events := st1.events ++ [.wstr (enc bytes)] }

/-- Balance check on an emitted event sequence: every open has a
matching close and the nesting never goes negative.  A sequence that is
not balanced is not syntactically valid JSON. -/
def eventDepth : WEvent → Int
  | .startObj => 1
  | .startArr => 1
  | .endObj => -1
  | .endArr => -1
  | _ => 0

/-- Whether an event sequence is brace/bracket balanced. -/
def isBalanced (l : List WEvent) : Bool :=
  (l.foldl (fun acc e =>
      match acc with
      | none => none
      | some d =>
        let d2 := d + eventDepth e
        if d2 < 0 then none else some d2) (some (0 : Int))) = some 0

/-! ### Read-side archive (`JSONInputArchive`) -/

/-- The tag of `JSONInputArchive::Iterator` (`Type::Array`,
`Type::Object`, `Type::Null_`). -/
inductive IterType where
  | array
  | object
  | null_
  deriving DecidableEq

/-- `JSONInputArchive::Iterator`: a begin/end/current triple over either
the key-value pairs of an object or the elements of an array.  The
begin/end pair is represented by the underlying list, the current
iterator by the index `cur` (so `cur = length` is the end iterator). -/
structure Iterator where
  objPairs : List (String × JValue)
  arrElems : List JValue
  cur : Nat
  itsType : IterType

/-- The object-iterator constructor: like the source, degrades to
`Null_` when the range is empty (`begin == end`). -/
def Iterator.ofObject (ps : List (String × JValue)) : Iterator :=
  { objPairs := ps, arrElems := [], cur := 0,
    itsType := if ps.isEmpty then .null_ else .object }

/-- The array-iterator constructor: degrades to `Null_` when the range
is empty. -/
def Iterator.ofArray (xs : List JValue) : Iterator :=
  { objPairs := [], arrElems := xs, cur := 0,
    itsType := if xs.isEmpty then .null_ else .array }

/-- `Iterator::operator++`: advance the current iterator unless it is
already at the end; null iterators are unchanged. -/
def Iterator.inc (it : Iterator) : Iterator :=
  match it.itsType with
  | .array => if it.cur < it.arrElems.length then { it with cur := it.cur + 1 } else it
  | .object => if it.cur < it.objPairs.length then { it with cur := it.cur + 1 } else it
  | .null_ => it

/-- `Iterator::value`: the element at the current position; throws "No
more objects in input" at the end of the range, and an internal error on
a null iterator. -/
def Iterator.valueE (it : Iterator) : Except String JValue :=
  match it.itsType with
  | .array =>
    match it.arrElems.get? it.cur with
    | some v => .ok v
    | none => .error "No more objects in input"
  | .object =>
    match it.objPairs.get? it.cur with
    | some p => .ok p.2
    | none => .error "No more objects in input"
  | .null_ =>
    .error "JSONInputArchive internal error: null or empty iterator to object or array!"

/-- `Iterator::name`: the key at the current position for an object
iterator not at its end, otherwise null. -/
def Iterator.nameO (it : Iterator) : Option String :=
  match it.itsType with
  | .object => (it.objPairs.get? it.cur).map (fun p => p.1)
  | _ => none

/-- `Iterator::search(searchName)`: fails on a non-object iterator;
otherwise resets the current iterator to the beginning and scans
forward for an exact key match, stopping at the first match; if no key
matches, the current iterator is left at the end and a "not found"
error is raised.  Returns the mutated iterator together with the error,
mirroring the member mutation that precedes the C++ throw. -/
def Iterator.searchI (it : Iterator) (n : String) : Iterator × Option String :=
  if it.itsType ≠ .object then
    (it, some "Cannot search for a name in a non-object JSON node")
  else
    match it.objPairs.findIdx? (fun p => p.1 == n) with
    | some i => ({ it with cur := i }, none)
    | none =>
      ({ it with cur := it.objPairs.length },
        some ("JSON Parsing failed - provided NVP (" ++ n ++ ") not found"))

/-- The mutable state of a `JSONInputArchive`: the iterator stack (head
of the list is the back/top of the `std::vector`) and the pending name
(`itsNextName`). -/
structure InState where
  stack : List Iterator
  nextName : Option String

/-- The private `JSONInputArchive::search()` (archive level): consumes
and clears the pending name; if one was set and it does not match the
top iterator's current key (or there is no current key), performs
`Iterator::search` on the top iterator.  Returns the new state and the
error, if any. -/
def InState.searchStep (st : InState) : InState × Option String :=
  match st.nextName with
  | none => ({ st with nextName := none }, none)
  | some n =>
    let st1 : InState := { st with nextName := none }
    match st1.stack with
    | [] => (st1, some "No more objects in input")
    | it :: rest =>
      if it.nameO = some n then (st1, none)
      else
        let r := it.searchI n
        ({ st1 with stack := r.1 :: rest }, r.2)

/-- One typed scalar read (`JSONInputArchive::loadValue`): resolve the
pending name, extract the current value through the getter `g`, and on
success advance the top iterator.  Mirrors the C++ order: the throw
from `value()` or from the getter happens before `++`. -/
def InState.readWith {α : Type} (g : JValue → Option α) (st : InState) :
    InState × Except String α :=
  let r := st.searchStep
  match r.2 with
  | some e => (r.1, .error e)
  | none =>
    match r.1.stack with
    | [] => (r.1, .error "No more objects in input")
    | it :: rest =>
      match it.valueE with
      | .error e => (r.1, .error e)
      | .ok v =>
        match g v with
        | none => (r.1, .error "INCORRECT_TYPE")
        | some a => ({ r.1 with stack := it.inc :: rest }, .ok a)

/-- A generic element read: the pending-name resolution plus
`value()`-and-advance common to every `loadValue` overload, with the
raw DOM element as the result. -/
def InState.readV (st : InState) : InState × Except String JValue :=
  st.readWith some

/-- `setNextName` followed by a generic read: how the framework reads a
name-value pair. -/
def InState.readNamed (st : InState) (n : String) : InState × Except String JValue :=
  InState.readV { st with nextName := some n }

/-- `JSONInputArchive::startNode`: resolve the pending name, then push
an iterator over the children of the current value, which must be an
array or an object. -/
def InState.startNodeI (st : InState) : InState × Option String :=
  let r := st.searchStep
  match r.2 with
  | some e => (r.1, some e)
  | none =>
    match r.1.stack with
    | [] => (r.1, some "No more objects in input")
    | it :: _ =>
      match it.valueE with
      | .error e => (r.1, some e)
      | .ok v =>
        match v with
        | .jarr xs => ({ r.1 with stack := Iterator.ofArray xs :: r.1.stack }, none)
        | .jobj ps => ({ r.1 with stack := Iterator.ofObject ps :: r.1.stack }, none)
        | _ => (r.1, some "Current JSON node is neither an array nor an object")

/-- `JSONInputArchive::finishNode`: pop the iterator stack and advance
the newly exposed parent iterator. -/
def InState.finishNodeI (st : InState) : InState :=
  match st.stack with
  | [] => st
  | _ :: rest =>
    match rest with
    | [] => { st with stack := [] }
    | it :: rest2 => { st with stack := it.inc :: rest2 }

/-- `JSONInputArchive::loadSize`: at the root level, the member/element
count of the whole document; deeper, the count of the parent (second
from top) iterator's current value. -/
def InState.loadSize (doc : JValue) (st : InState) : Except String Nat :=
  if st.stack.length = 1 then
    match doc with
    | .jarr xs => .ok xs.length
    | .jobj ps => .ok ps.length
    | _ => .error "INCORRECT_TYPE"
  else
    match st.stack.get? 1 with
    | none => .error "No more objects in input"
    | some parentIt =>
      match parentIt.valueE with
      | .error e => .error e
      | .ok v =>
        match v with
        | .jarr xs => .ok xs.length
        | .jobj ps => .ok ps.length
        | _ => .error "Parent JSON node is neither an array nor an object"

/-- The constructor + `Init()` of `JSONInputArchive` for a parsed
document: pushes one iterator over the root, which must be an object or
an array. -/
def InState.init (doc : JValue) : Except String InState :=
  match doc with
  | .jarr xs => .ok { stack := [Iterator.ofArray xs], nextName := none }
  | .jobj ps => .ok { stack := [Iterator.ofObject ps], nextName := none }
  | _ => .error "JSON root element is not an object or array"

/-- `JSONInputArchive::loadBinaryValue`: set the pending name, read a
string value, decode it through the external base64 decoder `dec`, and
require the decoded length to equal the caller-declared `size`; only
then is the destination buffer overwritten (the throw precedes the
`memcpy`).  Returns the new archive state, the destination buffer after
the call, and the error, if any. -/
def InState.loadBinaryValue (st : InState) (dec : String → List Nat)
    (size : Nat) (name : Option String) (dest : List Nat) :
    InState × List Nat × Option String :=
  let r := ({ st with nextName := name } : InState).readWith get_string
  match r.2 with
  | .error e => (r.1, dest, some e)
  | .ok encoded =>
    let decoded := dec encoded
    if size ≠ decoded.length then
      (r.1, dest, some "Decoded binary data size does not match specified size")
    else
      ({ r.1 with nextName := none }, decoded, none)

/-! ### Claim theorems -/

/-- C1: For every value of a supported scalar type (bool, signed and
unsigned 32- and 64-bit integers, double, string, null), writing it
with the output archive's `saveValue` and reading the produced JSON
back with the input archive's `loadValue` for the same type yields the
original value; arithmetic types wider than 64 bits round-trip through
the decimal-string fallback whenever the external
`max_digits10`-precision printer and `stringToNumber` parser invert
each other, which the C++ standard guarantees at that precision. -/
theorem C1_scalar_roundtrip :
    (∀ b : Bool,
      (parseScalarEvent (saveValueBool b)).bind loadValueBool = some b)
  ∧ (∀ i : Int, -2 ^ 31 ≤ i → i < 2 ^ 31 →
      (parseScalarEvent (saveValueI32 i)).bind (loadValueSmallSigned 32) = some i)
  ∧ (∀ u : Nat, u < 2 ^ 32 →
      (parseScalarEvent (saveValueU32 u)).bind (loadValueSmallUnsigned 32) = some u)
  ∧ (∀ i : Int, -2 ^ 63 ≤ i → i < 2 ^ 63 →
      (parseScalarEvent (saveValueI64 i)).bind loadValueI64 = some i)
  ∧ (∀ u : Nat, u < 2 ^ 64 →
      (parseScalarEvent (saveValueU64 u)).bind loadValueU64 = some u)
  ∧ (∀ q : Rat,
      (parseScalarEvent (saveValueDouble q)).bind loadValueDouble = some q)
  ∧ (∀ s : String,
      (parseScalarEvent (saveValueString s)).bind loadValueString = some s)
  ∧ ((parseScalarEvent saveValueNull).bind loadValueNull = some ())
  ∧ (∀ (pr : Rat → String) (pa : String → Rat) (x : Rat), pa (pr x) = x →
      (parseScalarEvent (saveValueWide pr x)).bind (loadValueWide pa) = some x) := by
  refine ⟨?_, ?_, ?_, ?_, ?_, ?_, ?_, ?_, ?_⟩
  · intro b
    simp [saveValueBool, parseScalarEvent, loadValueBool, get_bool]
  · intro i h1 h2
    simp only [saveValueI32, parseScalarEvent, loadValueSmallSigned, get_int64,
      Option.bind_some, Option.map_some, Option.some.injEq]
    unfold signedCast
    norm_num at h1 h2 ⊢
    omega
  · intro u hu
    simp only [saveValueU32, parseScalarEvent, loadValueSmallUnsigned, get_uint64,
      Int.natCast_nonneg, if_true, Option.bind_some, Option.map_some,
      Int.toNat_natCast, Option.some.injEq]
    norm_num at hu ⊢
    omega
  · intro i _ _
    simp [saveValueI64, parseScalarEvent, loadValueI64, get_int64]
  · intro u _
    by_cases h : u < 9223372036854775808
    · have h2 : u < 2 ^ 63 := by norm_num; exact h
      simp [saveValueU64, parseScalarEvent, loadValueU64, get_uint64, h, h2,
        Int.toNat_natCast]
    · have h2 : ¬u < 2 ^ 63 := by norm_num; omega
      simp [saveValueU64, parseScalarEvent, loadValueU64, get_uint64, h, h2]
  · intro q
    simp [saveValueDouble, parseScalarEvent, loadValueDouble, get_double]
  · intro s
    simp [saveValueString, parseScalarEvent, loadValueString, get_string]
  · simp [saveValueNull, parseScalarEvent, loadValueNull]
  · intro pr pa x hinv
    simp [saveValueWide, parseScalarEvent, loadValueWide, get_string, hinv]

/-- Witness for C1 at the 64-bit boundary values 0, 2^31-1, 2^31,
2^63-1, -2^63, plus the uint64 boundary 2^63 and a wide-fallback
instance with a concrete codec pair. -/
theorem C1_scalar_roundtrip_witness :
    ((-2 ^ 31 : Int) ≤ 0 ∧ (0 : Int) < 2 ^ 31 ∧
      (parseScalarEvent (saveValueI32 0)).bind (loadValueSmallSigned 32) = some 0)
  ∧ ((parseScalarEvent (saveValueI32 (2 ^ 31 - 1))).bind (loadValueSmallSigned 32)
      = some (2 ^ 31 - 1))
  ∧ ((parseScalarEvent (saveValueI64 (2 ^ 31))).bind loadValueI64 = some (2 ^ 31))
  ∧ ((parseScalarEvent (saveValueI64 (2 ^ 63 - 1))).bind loadValueI64
      = some (2 ^ 63 - 1))
  ∧ ((parseScalarEvent (saveValueI64 (-2 ^ 63))).bind loadValueI64 = some (-2 ^ 63))
  ∧ ((parseScalarEvent (saveValueU64 (2 ^ 63))).bind loadValueU64 = some (2 ^ 63))
  ∧ ((parseScalarEvent (saveValueWide (fun _ : Rat => "wide") 0)).bind
      (loadValueWide (fun _ => (0 : Rat))) = some 0) := by
  obtain ⟨hb, hi32, hu32, hi64, hu64, hdq, hs, hn, hw⟩ := C1_scalar_roundtrip
  refine ⟨⟨by norm_num, by norm_num, hi32 0 (by norm_num) (by norm_num)⟩,
    hi32 (2 ^ 31 - 1) (by norm_num) (by norm_num),
    hi64 (2 ^ 31) (by norm_num) (by norm_num),
    hi64 (2 ^ 63 - 1) (by norm_num) (by norm_num),
    hi64 (-2 ^ 63) (by norm_num) (by norm_num),
    hu64 (2 ^ 63) (by norm_num),
    hw (fun _ => "wide") (fun _ => (0 : Rat)) 0 rfl⟩

/-- A read-side archive positioned at the start of an object level with
fields named `a`, `b`, `c` in that order, as the output archive writes
it. -/
def abcState (va vb vc : JValue) : InState :=
  { stack := [Iterator.ofObject [("a", va), ("b", vb), ("c", vc)]],
    nextName := none }

/-- C2: For an object level with fields named `a`, `b`, `c` in that
order, reading back by explicit name in the order `c`, `a`, `b` yields
exactly the values of `c`, `a`, `b`, the same three values that
sequential unnamed reads yield in the order `a`, `b`, `c`; moreover
after an out-of-order named lookup succeeds, the next unnamed read
resumes sequentially from the position after the match. -/
theorem C2_order_independence (va vb vc : JValue) :
    ((abcState va vb vc).readV.2 = .ok va
      ∧ (abcState va vb vc).readV.1.readV.2 = .ok vb
      ∧ (abcState va vb vc).readV.1.readV.1.readV.2 = .ok vc)
  ∧ (((abcState va vb vc).readNamed "c").2 = .ok vc
      ∧ (((abcState va vb vc).readNamed "c").1.readNamed "a").2 = .ok va
      ∧ ((((abcState va vb vc).readNamed "c").1.readNamed "a").1.readNamed "b").2
          = .ok vb)
  ∧ (((abcState va vb vc).readNamed "b").2 = .ok vb
      ∧ ((abcState va vb vc).readNamed "b").1.readV.2 = .ok vc) := by
  exact ⟨⟨rfl, rfl, rfl⟩, ⟨rfl, rfl, rfl⟩, rfl, rfl⟩

/-- A read-side object cursor parked at index 1 of a two-field object,
with pending name "z", which is absent from the key set. -/
def c3State : InState :=
  { stack := [{ objPairs := [("a", .jnull), ("b", .jnull)], arrElems := [],
                cur := 1, itsType := .object }],
    nextName := some "z" }

/-- C3 counterexample: resolving the absent pending name "z" fails with
the "not found" error, but the cursor position is NOT left unchanged:
it moves from index 1 to index 2 (the end of the key range), refuting
the claim that a failed search does not mutate the cursor. -/
theorem C3_counterexample :
    c3State.searchStep.2 = some "JSON Parsing failed - provided NVP (z) not found"
  ∧ c3State.stack.head?.map Iterator.cur = some 1
  ∧ c3State.searchStep.1.stack.head?.map Iterator.cur = some 2 :=
  ⟨rfl, rfl, rfl⟩

/-- C3 (amended): resolving a pending name absent from the current
object's key set fails with the "not found" error, and leaves the
cursor at the end of the object's key range (the failed linear scan
mutates the cursor). -/
theorem C3_missing_name (ps : List (String × JValue)) (rest : List Iterator)
    (cur : Nat) (n : String) (habs : ∀ p ∈ ps, p.1 ≠ n) :
    (InState.searchStep
      { stack := { objPairs := ps, arrElems := [], cur := cur,
                   itsType := .object } :: rest,
        nextName := some n }) =
    ({ stack := { objPairs := ps, arrElems := [], cur := ps.length,
                  itsType := .object } :: rest,
       nextName := none },
      some ("JSON Parsing failed - provided NVP (" ++ n ++ ") not found")) := by
  have hfind : ps.findIdx? (fun p => p.1 == n) = none := by
    induction ps with
    | nil => rfl
    | cons p ps ih =>
      have hp : (p.1 == n) = false := by
        simpa using habs p (by simp)
      rw [List.findIdx?_cons, hp]
      simpa using fun q hq => habs q (by simp [hq])
  have hname : ∀ q ∈ (List.get? ps cur).toList, q.1 ≠ n := by
    intro q hq
    exact habs q (List.get?_mem (by simpa using hq))
  simp only [InState.searchStep, Iterator.searchI, hfind]
  have hne : (Iterator.nameO
      { objPairs := ps, arrElems := [], cur := cur, itsType := .object })
      ≠ some n := by
    simp only [Iterator.nameO]
    intro hcontra
    obtain ⟨q, hq1, hq2⟩ := Option.map_eq_some'.mp hcontra
    exact habs q (List.get?_mem hq1) hq2
  simp [hne]

/-- Witness for C3 (amended) at a concrete two-field object. -/
theorem C3_missing_name_witness :
    (∀ p ∈ [("a", JValue.jnull), ("b", JValue.jnull)], p.1 ≠ "z")
  ∧ (InState.searchStep
      { stack := { objPairs := [("a", JValue.jnull), ("b", JValue.jnull)],
                   arrElems := [], cur := 1, itsType := .object } :: [],
        nextName := some "z" }) =
    ({ stack := { objPairs := [("a", JValue.jnull), ("b", JValue.jnull)],
                  arrElems := [], cur := 2, itsType := .object } :: [],
       nextName := none },
      some "JSON Parsing failed - provided NVP (z) not found") := by
  constructor
  · intro p hp
    simp only [List.mem_cons, List.mem_singleton] at hp
    rcases hp with h | h | h
    · rw [h]; decide
    · rw [h]; decide
    · cases h
  · exact C3_missing_name [("a", JValue.jnull), ("b", JValue.jnull)] [] 1 "z"
      (by intro p hp
          simp only [List.mem_cons, List.mem_singleton] at hp
          rcases hp with h | h | h
          · rw [h]; decide
          · rw [h]; decide
          · cases h)

/-- A write-side archive abandoned with two compounds still open: a
value was written at the root (root now `InObject`), a child node was
started and a value written inside it (child now `InObject`), and the
child was never finished. -/
def c4State : OutState :=
  ((initOut.writeScalar (.wint64 1)).startNode).writeScalar (.wint64 2)

/-- C4 counterexample: with two compounds still open at destruction
time, the destructor emits exactly one `EndObject` — it closes only the
top of the node-state stack, not every still-open compound — and the
emitted JSON is not syntactically valid. -/
theorem C4_counterexample :
    c4State.nodeStack = [NodeType.inObject, NodeType.inObject]
  ∧ c4State.dtor.events = c4State.events ++ [WEvent.endObj]
  ∧ isBalanced c4State.dtor.events = false :=
  ⟨rfl, rfl, rfl⟩

/-- C4 (amended): the destructor closes only the innermost still-open
compound: it emits one `EndObject` if the top node state is `InObject`,
one `EndArray` if it is `InArray`, and nothing otherwise, regardless of
how many deeper compounds are still open; in particular it never adds
more than one close event. -/
theorem C4_dtor_closes_only_top (st : OutState) (nt : NodeType)
    (nts : List NodeType) (h : st.nodeStack = nt :: nts) :
    st.dtor.events = st.events ++
      (if nt = .inObject then [WEvent.endObj]
       else if nt = .inArray then [WEvent.endArr] else [])
  ∧ st.dtor.events.length ≤ st.events.length + 1 := by
  cases nt <;>
    simp [OutState.dtor, h]

/-- Witness for C4 (amended) at the two-open-compound state. -/
theorem C4_dtor_closes_only_top_witness :
    c4State.nodeStack = NodeType.inObject :: [NodeType.inObject]
  ∧ c4State.dtor.events = c4State.events ++ [WEvent.endObj] :=
  ⟨rfl, by
    simpa using
      (C4_dtor_closes_only_top c4State .inObject [.inObject] rfl).1⟩

/-- C5: writing three unnamed scalars inside one object-mode compound
emits exactly the keys "value0", "value1", "value2" in that order; in
general an unnamed member of an object level gets the synthesized key
"value" followed by the level's counter, with the counter bumped
(as a `uint32_t`) after each synthesis, and each newly started node
gets a fresh zero counter. -/
theorem C5_value_keys :
    (∀ e1 e2 e3 : WEvent,
      (((initOut.writeScalar e1).writeScalar e2).writeScalar e3).events =
        [.startObj, .wstr "value0", e1, .wstr "value1", e2, .wstr "value2", e3])
  ∧ (∀ (st : OutState) (nt : NodeType) (nts : List NodeType) (c : Nat)
        (cs : List Nat),
      st.nodeStack = nt :: nts → st.nameCounter = c :: cs →
      st.nextName = none → (nt = .startObject ∨ nt = .inObject) →
      st.writeName.events = st.events ++
          (if nt = .startObject then [WEvent.startObj] else [])
          ++ [.wstr ("value" ++ Nat.repr c)]
        ∧ st.writeName.nameCounter = ((c + 1) % 2 ^ 32) :: cs)
  ∧ (∀ st : OutState, st.startNode.nameCounter.head? = some 0) := by
  refine ⟨fun e1 e2 e3 => rfl, ?_, ?_⟩
  · intro st nt nts c cs h1 h2 h3 h4
    rcases h4 with h4 | h4 <;> subst h4 <;>
      simp [OutState.writeName, h1, h2, h3]
  · intro st
    simp [OutState.startNode]

/-- Witness for C5's general synthesis step at the initial archive
state. -/
theorem C5_value_keys_witness :
    initOut.nodeStack = NodeType.startObject :: []
  ∧ initOut.nameCounter = 0 :: []
  ∧ initOut.nextName = none
  ∧ initOut.writeName.events =
      initOut.events ++ [WEvent.startObj] ++ [.wstr ("value" ++ Nat.repr 0)]
  ∧ initOut.writeName.nameCounter = ((0 + 1) % 2 ^ 32) :: [] := by
  refine ⟨rfl, rfl, rfl, ?_, ?_⟩
  · simpa using
      (C5_value_keys.2.1 initOut .startObject [] 0 [] rfl rfl rfl (Or.inl rfl)).1
  · exact (C5_value_keys.2.1 initOut .startObject [] 0 [] rfl rfl rfl (Or.inl rfl)).2

/-- The document an empty object-mode compound round-trips through:
the parent object holds the synthesized key and an empty object. -/
def docEmptyObj : JValue := .jobj [("value0", .jobj [])]

/-- The document an empty array-mode compound round-trips through. -/
def docEmptyArr : JValue := .jobj [("value0", .jarr [])]

/-- C6: starting a node and immediately finishing it with no
intervening writes emits a balanced open/close pair — an empty object
in object mode, an empty array after `makeArray` — rather than no
output; and reading such an empty compound back reports zero children
via `loadSize`. -/
theorem C6_empty_compound :
    (∀ st : OutState,
      st.startNode.finishNode.events =
        st.writeName.events ++ [WEvent.startObj, WEvent.endObj])
  ∧ (∀ st : OutState,
      st.startNode.makeArray.finishNode.events =
        st.writeName.events ++ [WEvent.startArr, WEvent.endArr])
  ∧ (InState.init docEmptyObj =
      .ok { stack := [Iterator.ofObject [("value0", .jobj [])]], nextName := none })
  ∧ (({ stack := [Iterator.ofObject [("value0", .jobj [])]],
        nextName := none } : InState).startNodeI.2 = none)
  ∧ (({ stack := [Iterator.ofObject [("value0", .jobj [])]],
        nextName := none } : InState).startNodeI.1.loadSize docEmptyObj = .ok 0)
  ∧ (({ stack := [Iterator.ofObject [("value0", .jarr [])]],
        nextName := none } : InState).startNodeI.1.loadSize docEmptyArr = .ok 0) := by
  refine ⟨?_, ?_, rfl, rfl, rfl, rfl⟩
  · intro st
    simp [OutState.startNode, OutState.finishNode]
  · intro st
    simp [OutState.startNode, OutState.makeArray, OutState.finishNode]

/-- The parsed document a saved binary blob is read back from: an array
level whose current element is the base64 string written by
`saveBinaryValue`. -/
def binDoc (enc : List Nat → String) (bytes : List Nat) (tl : List JValue) :
    InState :=
  { stack := [Iterator.ofArray (.jstr (enc bytes) :: tl)], nextName := none }

/-- C7: `saveBinaryValue` writes the base64 encoding of the buffer as a
string value; `loadBinaryValue` reads it back, decodes it, succeeds
exactly when the decoded length equals the caller-declared size —
reproducing the original bytes — and on a size mismatch fails without
writing the destination buffer.  The external base64 codec is passed in
as the pair `enc`/`dec` with its decode-of-encode round-trip. -/
theorem C7_binary_roundtrip (enc : List Nat → String) (dec : String → List Nat)
    (bytes dest : List Nat) (size : Nat) (tl : List JValue)
    (hcodec : dec (enc bytes) = bytes) :
    (∀ (st : OutState) (name : Option String),
      (st.saveBinaryValue enc bytes name).events =
        (OutState.writeName { st with nextName := name }).events
          ++ [.wstr (enc bytes)])
  ∧ (size = bytes.length →
      ((binDoc enc bytes tl).loadBinaryValue dec size none dest).2.1 = bytes
      ∧ ((binDoc enc bytes tl).loadBinaryValue dec size none dest).2.2 = none)
  ∧ (size ≠ bytes.length →
      ((binDoc enc bytes tl).loadBinaryValue dec size none dest).2.1 = dest
      ∧ (((binDoc enc bytes tl).loadBinaryValue dec size none dest).2.2).isSome
          = true) := by
  refine ⟨fun st name => rfl, ?_, ?_⟩
  · intro hsz
    subst hsz
    constructor <;>
      simp [InState.loadBinaryValue, InState.readWith, InState.searchStep,
        binDoc, Iterator.ofArray, Iterator.valueE, get_string, Iterator.inc,
        hcodec]
  · intro hsz
    constructor <;>
      simp [InState.loadBinaryValue, InState.readWith, InState.searchStep,
        binDoc, Iterator.ofArray, Iterator.valueE, get_string, Iterator.inc,
        hcodec, hsz]

/-- A concrete stand-in for the external base64 encoder at the witness
buffer. -/
def c7enc : List Nat → String := fun _ => "AQID"

/-- A concrete stand-in for the external base64 decoder at the witness
buffer. -/
def c7dec : String → List Nat := fun _ => [1, 2, 3]

/-- Witness for C7 with a three-byte buffer: declared size 3 succeeds
and reproduces the bytes; declared size 4 fails and leaves the
destination untouched. -/
theorem C7_binary_roundtrip_witness :
    c7dec (c7enc [1, 2, 3]) = [1, 2, 3]
  ∧ ((binDoc c7enc [1, 2, 3] []).loadBinaryValue c7dec 3 none [9, 9, 9]).2.1
      = [1, 2, 3]
  ∧ ((binDoc c7enc [1, 2, 3] []).loadBinaryValue c7dec 3 none [9, 9, 9]).2.2
      = none
  ∧ ((binDoc c7enc [1, 2, 3] []).loadBinaryValue c7dec 4 none [9, 9, 9]).2.1
      = [9, 9, 9]
  ∧ (((binDoc c7enc [1, 2, 3] []).loadBinaryValue c7dec 4 none [9, 9, 9]).2.2).isSome
      = true := by
  have h3 := (C7_binary_roundtrip c7enc c7dec [1, 2, 3] [9, 9, 9] 3 [] rfl).2.1 rfl
  have h4 := (C7_binary_roundtrip c7enc c7dec [1, 2, 3] [9, 9, 9] 4 [] rfl).2.2
    (by decide)
  exact ⟨rfl, h3.1, h3.2, h4.1, h4.2⟩

/-- C8 counterexample: after `setNextName("x")`, a `writeName` whose
enclosing level is in array mode returns early without consuming the
pending name — the slot still holds "x" afterwards, refuting "the slot
is empty again regardless of whether the enclosing level is an object
or an array". -/
theorem C8_counterexample :
    ((initOut.makeArray.setNextNameO (some "x")).writeName).nextName = some "x"
  ∧ (initOut.makeArray.setNextNameO (some "x")).nodeStack
      = [NodeType.startArray] :=
  ⟨rfl, rfl⟩

/-- C8 (amended): the pending-name slot holds at most one name; on the
input archive every read clears it (the archive-level search consumes
it unconditionally); on the output archive `writeName` — and hence
`startNode` and scalar writes — consumes and clears it when the
enclosing level is in object mode, but a write at an array-mode level
returns early and leaves the pending name unchanged. -/
theorem C8_pending_name :
    (∀ st : InState, st.searchStep.1.nextName = none)
  ∧ (∀ st : InState, st.readV.1.nextName = none)
  ∧ (∀ (st : OutState) (nt : NodeType) (nts : List NodeType) (c : Nat)
        (cs : List Nat),
      st.nodeStack = nt :: nts → st.nameCounter = c :: cs →
      (nt = .startObject ∨ nt = .inObject) →
      st.writeName.nextName = none ∧ st.startNode.nextName = none)
  ∧ (∀ st : OutState,
      (st.nodeStack.head? = some .startArray
        ∨ st.nodeStack.head? = some .inArray) →
      st.writeName.nextName = st.nextName) := by
  have hsearch : ∀ st : InState, st.searchStep.1.nextName = none := by
    intro st
    obtain ⟨stack, nn⟩ := st
    cases nn with
    | none => rfl
    | some n =>
      cases stack with
      | nil => rfl
      | cons it rest =>
        simp only [InState.searchStep]
        split <;> rfl
  have hwrite : ∀ (st : OutState) (nt : NodeType) (nts : List NodeType)
      (c : Nat) (cs : List Nat),
      st.nodeStack = nt :: nts → st.nameCounter = c :: cs →
      (nt = .startObject ∨ nt = .inObject) →
      st.writeName.nextName = none := by
    intro st nt nts c cs h1 h2 h3
    rcases h3 with h3 | h3 <;> subst h3 <;>
      (cases hnn : st.nextName <;>
        simp [OutState.writeName, h1, h2, hnn])
  refine ⟨hsearch, ?_, ?_, ?_⟩
  · intro st
    have : st.readV.1.nextName = st.searchStep.1.nextName := by
      unfold InState.readV InState.readWith
      rcases h2 : st.searchStep with ⟨st1, err⟩
      cases err with
      | some e => rfl
      | none =>
        cases h3 : st1.stack with
        | nil => simp [h3]
        | cons it rest =>
          cases hv : it.valueE with
          | error e => simp [h3, hv]
          | ok v => simp [h3, hv]
    rw [this, hsearch]
  · intro st nt nts c cs h1 h2 h3
    refine ⟨hwrite st nt nts c cs h1 h2 h3, ?_⟩
    simp only [OutState.startNode]
    exact hwrite st nt nts c cs h1 h2 h3
  · intro st h
    rcases h with h | h <;>
      (obtain ⟨nstack, ncounter, nn, evs⟩ := st
       cases nstack with
       | nil => simp at h
       | cons nt nts =>
         simp only [List.head?] at h
         cases h
         cases ncounter with
         | nil => rfl
         | cons c cs => simp [OutState.writeName])

/-- Witness for C8 (amended): the initial archives consume and clear a
pending name on the next read/write. -/
theorem C8_pending_name_witness :
    (InState.searchStep { stack := [], nextName := some "x" }).1.nextName = none
  ∧ initOut.nodeStack = NodeType.startObject :: []
  ∧ initOut.nameCounter = 0 :: []
  ∧ (initOut.setNextNameO (some "x")).writeName.nextName = none := by
  refine ⟨C8_pending_name.1 { stack := [], nextName := some "x" }, rfl, rfl, ?_⟩
  exact (C8_pending_name.2.2.1 (initOut.setNextNameO (some "x")) .startObject []
    0 [] rfl rfl (Or.inl rfl)).1

/-- C9: name-based search on an array cursor always fails — at the
iterator level `search` raises the non-object error, and at the archive
level a pending name over an array-type top cursor is never resolved
positionally but always raises that error. -/
theorem C9_array_search_fails (it : Iterator) (n : String)
    (rest : List Iterator) (h1 : it.itsType = .array) :
    (it.searchI n).2 = some "Cannot search for a name in a non-object JSON node"
  ∧ (InState.searchStep { stack := it :: rest, nextName := some n }).2 =
      some "Cannot search for a name in a non-object JSON node" := by
  have hname : it.nameO = none := by
    simp [Iterator.nameO, h1]
  constructor
  · simp [Iterator.searchI, h1]
  · simp [InState.searchStep, hname, Iterator.searchI, h1]

/-- Witness for C9 at a one-element array cursor. -/
theorem C9_array_search_fails_witness :
    (Iterator.ofArray [JValue.jnull]).itsType = IterType.array
  ∧ ((Iterator.ofArray [JValue.jnull]).searchI "x").2 =
      some "Cannot search for a name in a non-object JSON node"
  ∧ (InState.searchStep
      { stack := [Iterator.ofArray [JValue.jnull]], nextName := some "x" }).2 =
      some "Cannot search for a name in a non-object JSON node" := by
  refine ⟨rfl, ?_, ?_⟩
  · exact (C9_array_search_fails (Iterator.ofArray [JValue.jnull]) "x" [] rfl).1
  · exact (C9_array_search_fails (Iterator.ofArray [JValue.jnull]) "x" [] rfl).2

/-- C10 counterexample: a stored value outside the target type's range
is NOT always accepted: the 64-bit getter itself can fail.  Reading the
stored number `2^63` into an 8-bit signed target errors out instead of
being reduced modulo `2^8`, and reading `-1` into an 8-bit unsigned
target errors out likewise. -/
theorem C10_counterexample :
    loadValueSmallSigned 8 (JValue.juint (2 ^ 63)) = none
  ∧ loadValueSmallUnsigned 8 (JValue.jint (-1)) = none := by
  constructor
  · simp [loadValueSmallSigned, get_int64]
  · simp [loadValueSmallUnsigned, get_uint64]

/-- C10 (amended): `loadValue` for integral targets narrower than 64
bits extracts through the 64-bit getter and narrows with a plain
`static_cast` and no range check: every stored value the 64-bit getter
can return that lies outside the target range is accepted and silently
reduced modulo `2^w` (into the signed window for signed targets); only
values the 64-bit getter itself rejects — negatives for unsigned
targets, values at or above `2^63` for signed targets — fail. -/
theorem C10_narrowing (w : Nat) (hw : 0 < w) :
    (∀ i : Int, loadValueSmallSigned w (.jint i) = some (signedCast w i))
  ∧ (∀ i : Int, signedCast w i % 2 ^ w = i % 2 ^ w)
  ∧ (∀ i : Int, -2 ^ (w - 1) ≤ signedCast w i ∧ signedCast w i < 2 ^ (w - 1))
  ∧ (∀ u : Nat, loadValueSmallUnsigned w (.juint u) = some (u % 2 ^ w))
  ∧ (∀ i : Int, 0 ≤ i →
      loadValueSmallUnsigned w (.jint i) = some (i.toNat % 2 ^ w))
  ∧ (∀ u : Nat, 2 ^ 63 ≤ u → loadValueSmallSigned w (.juint u) = none)
  ∧ (∀ i : Int, i < 0 → loadValueSmallUnsigned w (.jint i) = none) := by
  refine ⟨?_, ?_, ?_, ?_, ?_, ?_, ?_⟩
  · intro i
    simp [loadValueSmallSigned, get_int64]
  · intro i
    unfold signedCast
    rw [Int.sub_emod, Int.emod_emod_of_dvd _ dvd_rfl, ← Int.sub_emod,
      add_sub_cancel_right]
  · intro i
    have hsplit : (2 : Int) ^ w = 2 * 2 ^ (w - 1) := by
      conv_lhs => rw [show w = (w - 1) + 1 by omega]
      rw [pow_succ]
      ring
    have h1 : 0 ≤ (i + 2 ^ (w - 1)) % 2 ^ w :=
      Int.emod_nonneg _ (by positivity)
    have h2 : (i + 2 ^ (w - 1)) % 2 ^ w < 2 ^ w :=
      Int.emod_lt_of_pos _ (by positivity)
    unfold signedCast
    constructor <;> omega
  · intro u
    simp [loadValueSmallUnsigned, get_uint64]
  · intro i hi
    simp [loadValueSmallUnsigned, get_uint64, hi]
  · intro u hu
    have h2 : ¬(u ≤ 2 ^ 63 - 1) := by omega
    simp [loadValueSmallSigned, get_int64, h2]
    omega
  · intro i hi
    have h2 : ¬(0 ≤ i) := by omega
    simp [loadValueSmallUnsigned, get_uint64, h2]

/-- Witness for C10 (amended) at width 8: the stored value 300 is
outside the signed and unsigned 8-bit ranges and is wrapped to 44
unsigned and to 44 signed, and the stored value 200 wraps to -56 as a
signed byte. -/
theorem C10_narrowing_witness :
    (0 : Nat) < 8
  ∧ loadValueSmallSigned 8 (.jint 300) = some (signedCast 8 300)
  ∧ signedCast 8 300 = 44
  ∧ loadValueSmallSigned 8 (.jint 200) = some (signedCast 8 200)
  ∧ signedCast 8 200 = -56
  ∧ loadValueSmallUnsigned 8 (.juint 300) = some 44
  ∧ loadValueSmallSigned 8 (.juint (2 ^ 63)) = none := by
  refine ⟨by norm_num, (C10_narrowing 8 (by norm_num)).1 300, by decide,
    (C10_narrowing 8 (by norm_num)).1 200, by decide, ?_, ?_⟩
  · simpa using (C10_narrowing 8 (by norm_num)).2.2.2.1 300
  · exact (C10_narrowing 8 (by norm_num)).2.2.2.2.2.1 (2 ^ 63) (by norm_num)

end Ser20
